import Mathlib

/-!
Verification development for the stargate home-automation engine.
Each section embeds one component of the Python source as executable
Lean definitions and proves the specified properties about them.
-/

namespace Stargate

/-! ### DSC Envisalink frame encoding (src/gateways/powerseries/dsc_panel.py)

`DscPanelServer._encode_dsc_command` renders a command as three ASCII
decimal digits (via the format `%03d`; commands are valid 3-digit codes,
i.e. < 1000), the data bytes, and a two-digit upper-case hex checksum of
the byte sum modulo 256.  `hexNibbleChar` models
`hex(nibble)[-1].upper()` for a nibble in 0..15. -/

def hexNibbleChar (n : Nat) : Char :=
  if n < 10 then Char.ofNat (48 + n) else Char.ofNat (65 + (n - 10))

/-- the three ASCII digits produced by `'%03d' % command` for command < 1000 -/
def dscCmdBytes (command : Nat) : List Char :=
  [Char.ofNat (48 + command / 100 % 10),
   Char.ofNat (48 + command / 10 % 10),
   Char.ofNat (48 + command % 10)]

/-- running byte sum of `_encode_dsc_command`, reduced modulo 256 at the end -/
def dscChecksum (cmd_bytes data_bytes : List Char) : Nat :=
  ((cmd_bytes ++ data_bytes).foldl (fun a c => a + c.toNat) 0) % 256

def encodeDscCommand (command : Nat) (data_bytes : List Char) : List Char :=
  let cmd_bytes := dscCmdBytes command
  let checksum := dscChecksum cmd_bytes data_bytes
  cmd_bytes ++ data_bytes ++ [hexNibbleChar (checksum / 16), hexNibbleChar (checksum % 16)]

/-- `int(s)` on a short ASCII string made of decimal digits; `none` models the
`ValueError` raised on anything else. -/
def parseNatDigits (l : List Char) : Option Nat :=
  if l ≠ [] ∧ l.all Char.isDigit then
    some (l.foldl (fun a c => 10 * a + (c.toNat - 48)) 0)
  else
    none

/-- the tuple `(int(cmdline[:3]), cmdline[3:-2], cmdline[-2:])` from
`DscPanelServer._receive_dsc_cmd`; Python slices clamp, which the
truncated `Nat` subtractions reproduce -/
def decodeDscFrame (line : List Char) : Option (Nat × List Char × List Char) :=
  match parseNatDigits (line.take 3) with
  | none => none
  | some cmd_num => some (cmd_num, (line.drop 3).take (line.length - 5), line.drop (line.length - 2))

end Stargate

open Stargate

section DscEncodeLemmas

lemma hexNibbleChar_toNat (n : Nat) (h : n < 16) :
    (hexNibbleChar n).toNat = if n < 10 then 48 + n else 65 + (n - 10) := by
  unfold hexNibbleChar
  interval_cases n <;> decide

lemma digitChar_toNat (d : Nat) (h : d < 10) : (Char.ofNat (48 + d)).toNat = 48 + d := by
  interval_cases d <;> decide

lemma digitChar_isDigit (d : Nat) (h : d < 10) : (Char.ofNat (48 + d)).isDigit = true := by
  interval_cases d <;> decide

lemma dscCmdBytes_length (c : Nat) : (dscCmdBytes c).length = 3 := rfl

lemma parse_dscCmdBytes (c : Nat) (h : c < 1000) :
    parseNatDigits (dscCmdBytes c) = some c := by
  unfold parseNatDigits dscCmdBytes
  rw [if_pos]
  · simp only [List.foldl]
    rw [digitChar_toNat _ (Nat.mod_lt _ (by norm_num)),
        digitChar_toNat _ (Nat.mod_lt _ (by norm_num)),
        digitChar_toNat _ (Nat.mod_lt _ (by norm_num))]
    congr 1
    omega
  · refine ⟨by simp, ?_⟩
    rw [List.all_cons, List.all_cons, List.all_cons, List.all_nil,
        digitChar_isDigit _ (Nat.mod_lt _ (by norm_num)),
        digitChar_isDigit _ (Nat.mod_lt _ (by norm_num)),
        digitChar_isDigit _ (Nat.mod_lt _ (by norm_num))]
    rfl

lemma encodeDscCommand_eq (c : Nat) (d : List Char) :
    encodeDscCommand c d =
      dscCmdBytes c ++ d ++
        [hexNibbleChar (dscChecksum (dscCmdBytes c) d / 16),
         hexNibbleChar (dscChecksum (dscCmdBytes c) d % 16)] := rfl

lemma encodeDscCommand_length (c : Nat) (d : List Char) :
    (encodeDscCommand c d).length = d.length + 5 := by
  rw [encodeDscCommand_eq]
  simp [dscCmdBytes]

lemma encodeDscCommand_take3 (c : Nat) (d : List Char) :
    (encodeDscCommand c d).take 3 = dscCmdBytes c := by
  rw [encodeDscCommand_eq, List.append_assoc, ← dscCmdBytes_length c, List.take_left]

lemma encodeDscCommand_drop3 (c : Nat) (d : List Char) :
    (encodeDscCommand c d).drop 3 =
      d ++ [hexNibbleChar (dscChecksum (dscCmdBytes c) d / 16),
            hexNibbleChar (dscChecksum (dscCmdBytes c) d % 16)] := by
  rw [encodeDscCommand_eq, List.append_assoc, ← dscCmdBytes_length c, List.drop_left]

end DscEncodeLemmas

/-- C6: for every valid 3-digit command code and data string, DSC encode produces
the 3 ASCII digits, the data, and the two-uppercase-hex-digit checksum of the
ASCII byte sum of code plus data modulo 256 (0x00 renders as "00" and 0xFF as
"FF", with the leading zero kept), and decoding the encoded frame yields back
exactly the same code, data and checksum. -/
theorem dsc_encode_decode_roundtrip (command : Nat) (hc : command < 1000) (data_bytes : List Char) :
    encodeDscCommand command data_bytes =
      dscCmdBytes command ++ data_bytes ++
        [hexNibbleChar (dscChecksum (dscCmdBytes command) data_bytes / 16),
         hexNibbleChar (dscChecksum (dscCmdBytes command) data_bytes % 16)] ∧
    decodeDscFrame (encodeDscCommand command data_bytes) =
      some (command, data_bytes,
        [hexNibbleChar (dscChecksum (dscCmdBytes command) data_bytes / 16),
         hexNibbleChar (dscChecksum (dscCmdBytes command) data_bytes % 16)]) ∧
    [hexNibbleChar (0 / 16), hexNibbleChar (0 % 16)] = ['0', '0'] ∧
    [hexNibbleChar (255 / 16), hexNibbleChar (255 % 16)] = ['F', 'F'] := by
  refine ⟨rfl, ?_, by decide, by decide⟩
  have hdata : ((encodeDscCommand command data_bytes).drop 3).take
      ((encodeDscCommand command data_bytes).length - 5) = data_bytes := by
    rw [encodeDscCommand_drop3, encodeDscCommand_length, Nat.add_sub_cancel, List.take_left]
  have hck : (encodeDscCommand command data_bytes).drop
      ((encodeDscCommand command data_bytes).length - 2) =
      [hexNibbleChar (dscChecksum (dscCmdBytes command) data_bytes / 16),
       hexNibbleChar (dscChecksum (dscCmdBytes command) data_bytes % 16)] := by
    rw [encodeDscCommand_length]
    have hl : data_bytes.length + 5 - 2 = (dscCmdBytes command ++ data_bytes).length := by
      simp [dscCmdBytes]
    rw [hl, encodeDscCommand_eq, List.drop_left]
  have hmain : decodeDscFrame (encodeDscCommand command data_bytes) =
      some (command,
        ((encodeDscCommand command data_bytes).drop 3).take
          ((encodeDscCommand command data_bytes).length - 5),
        (encodeDscCommand command data_bytes).drop
          ((encodeDscCommand command data_bytes).length - 2)) := by
    unfold decodeDscFrame
    rw [encodeDscCommand_take3, parse_dscCmdBytes command hc]
  rw [hmain, hdata, hck]

theorem dsc_encode_decode_roundtrip_witness :
    609 < 1000 ∧
    (encodeDscCommand 609 ['0', '0', '3'] =
      dscCmdBytes 609 ++ ['0', '0', '3'] ++
        [hexNibbleChar (dscChecksum (dscCmdBytes 609) ['0', '0', '3'] / 16),
         hexNibbleChar (dscChecksum (dscCmdBytes 609) ['0', '0', '3'] % 16)] ∧
    decodeDscFrame (encodeDscCommand 609 ['0', '0', '3']) =
      some (609, ['0', '0', '3'],
        [hexNibbleChar (dscChecksum (dscCmdBytes 609) ['0', '0', '3'] / 16),
         hexNibbleChar (dscChecksum (dscCmdBytes 609) ['0', '0', '3'] % 16)]) ∧
    [hexNibbleChar (0 / 16), hexNibbleChar (0 % 16)] = ['0', '0'] ∧
    [hexNibbleChar (255 / 16), hexNibbleChar (255 % 16)] = ['F', 'F']) :=
  ⟨by decide, dsc_encode_decode_roundtrip 609 (by decide) ['0', '0', '3']⟩

namespace Stargate

/-! ### DSC panel cache and receive dispatch (src/gateways/powerseries/dsc_panel.py)

`DscPanelCache` keeps per-zone and per-partition status dictionaries whose
values are either the sentinel string "stale" or a recorded status integer;
an absent key models a dictionary entry that was never created (reading it
raises `KeyError`, which like any uncaught exception is modelled as `none`).
`_receive_dsc_cmd` parses a frame, re-encodes it to verify the checksum,
dispatches to the matching response handler, and forwards the frame to the
reflector (when one exists) except for authentication responses (505). -/

inductive DscStatus where
  | stale
  | val (n : Nat)
deriving DecidableEq

/-- an `on_user_action(dev_type, dev_id, state, refresh)` call sent by
`DscPanelCache._broadcast_change` -/
structure DscBroadcast where
  dev_type : String
  dev_id : Nat
  state : Nat
  refresh : Bool
deriving DecidableEq

structure DscPanelCache where
  zone_status : Nat → Option DscStatus
  partition_status : Nat → Option DscStatus

/-- `PartitionStatus.READY` -/
def partitionReady : Nat := 0

/-- `PartitionStatus.ARMED` -/
def partitionArmed : Nat := 1

/-- `PartitionStatus.BUSY` -/
def partitionBusy : Nat := 2

/-- `DscPanelCache._record_zone_status` followed by `_broadcast_change`:
reads the old status (raising on a missing key), stores the new one, and
broadcasts with refresh true iff the old status was the stale sentinel -/
def recordZoneStatus (c : DscPanelCache) (zone status : Nat) :
    Option (DscPanelCache × List DscBroadcast) :=
  match c.zone_status zone with
  | none => none
  | some old =>
    some ({ c with zone_status := fun z => if z = zone then some (DscStatus.val status) else c.zone_status z },
          [⟨"zone", zone, status, decide (old = DscStatus.stale)⟩])

/-- `DscPanelCache._record_partition_status` followed by `_broadcast_change` -/
def recordPartitionStatus (c : DscPanelCache) (partition status : Nat) :
    Option (DscPanelCache × List DscBroadcast) :=
  match c.partition_status partition with
  | none => none
  | some old =>
    some ({ c with partition_status := fun p => if p = partition then some (DscStatus.val status) else c.partition_status p },
          [⟨"partition", partition, status, decide (old = DscStatus.stale)⟩])

/-- the `_response_cmd_map` dispatch of `_receive_dsc_cmd`: log-only handlers
leave the cache unchanged, zone and partition handlers record status, the
login handler asserts a non-zero response, and an unknown command number is
ignored -/
def dscResponseDispatch (c : DscPanelCache) (cmd_num : Nat) (data : List Char) :
    Option (DscPanelCache × List DscBroadcast) :=
  if cmd_num = 501 then some (c, [])
  else if cmd_num = 505 then
    match parseNatDigits data with
    | none => none
    | some v => if v > 0 then some (c, []) else none
  else if cmd_num = 609 then
    (parseNatDigits data).bind (fun z => recordZoneStatus c z 1)
  else if cmd_num = 610 then
    (parseNatDigits data).bind (fun z => recordZoneStatus c z 0)
  else if cmd_num = 650 then
    (parseNatDigits data).bind (fun p => recordPartitionStatus c p partitionReady)
  else if cmd_num = 652 then
    (parseNatDigits data).bind (fun p => recordPartitionStatus c p partitionArmed)
  else if cmd_num = 673 then
    (parseNatDigits data).bind (fun p => recordPartitionStatus c p partitionBusy)
  else if cmd_num = 840 then some (c, [])
  else if cmd_num = 841 then some (c, [])
  else if cmd_num = 912 then
    match data with
    | [a, b] => if a.isDigit ∧ b.isDigit then some (c, []) else none
    | _ => none
  else some (c, [])

/-- `DscPanelServer._receive_dsc_cmd`: the result is the new cache, the
broadcasts emitted, and the frame forwarded to the reflector (if any);
`none` models an uncaught exception on the listener thread -/
def receiveDscCmd (c : DscPanelCache) (has_reflector : Bool) (cmdline : List Char) :
    Option (DscPanelCache × List DscBroadcast × Option (List Char)) :=
  match parseNatDigits (cmdline.take 3) with
  | none => none
  | some cmd_num =>
    let cmd_data := (cmdline.drop 3).take (cmdline.length - 5)
    if cmdline ≠ encodeDscCommand cmd_num cmd_data then
      some (c, [], none)
    else
      match dscResponseDispatch c cmd_num cmd_data with
      | none => none
      | some (c', bs) =>
        some (c', bs, if has_reflector ∧ cmd_num ≠ 505 then some cmdline else none)

def emptyDscCache : DscPanelCache := ⟨fun _ => none, fun _ => none⟩

end Stargate

/-- C7: a received DSC frame whose checksum does not verify (re-encoding the
parsed code and data does not reproduce the frame) is discarded: no response
handler runs, the zone and partition caches are unchanged, and nothing is
forwarded to the reflector. -/
theorem dsc_bad_checksum_discarded (c : DscPanelCache) (has_reflector : Bool)
    (line : List Char) (cmd_num : Nat)
    (hparse : parseNatDigits (line.take 3) = some cmd_num)
    (hbad : line ≠ encodeDscCommand cmd_num ((line.drop 3).take (line.length - 5))) :
    receiveDscCmd c has_reflector line = some (c, [], none) := by
  unfold receiveDscCmd
  rw [hparse]
  simp only [if_pos hbad]

theorem dsc_bad_checksum_discarded_witness :
    receiveDscCmd emptyDscCache true ['6', '0', '9', '0', '0', '3', '3', 'F'] =
      some (emptyDscCache, [], none) :=
  dsc_bad_checksum_discarded emptyDscCache true ['6', '0', '9', '0', '0', '3', '3', 'F'] 609
    (by decide) (by decide)

namespace Stargate

/-! ### CRLF line framing (src/connections.py)

`CrlfSocketBuffer.read_lines` concatenates the leftover buffer with the
newly received chunk, splits on CRLF (`data.split('\r\n')`), pops the
trailing element back into the leftover buffer and yields the rest. -/

def CRLF : List Char := ['\r', '\n']

/-- helper for `splitCRLF`: prepend a character to the first piece -/
def consHead (c : Char) : List (List Char) → List (List Char)
  | [] => [[c]]
  | l :: ls => (c :: l) :: ls

/-- Python `str.split('\r\n')`: split at each leftmost non-overlapping CRLF -/
def splitCRLF : List Char → List (List Char)
  | [] => [[]]
  | [c] => [[c]]
  | c :: c' :: rest =>
    if c = '\r' ∧ c' = '\n' then [] :: splitCRLF rest
    else consHead c (splitCRLF (c' :: rest))

def joinCRLF : List (List Char) → List Char
  | [] => []
  | [x] => x
  | x :: xs => x ++ CRLF ++ joinCRLF xs

/-- one `read_lines` call: returns the complete lines and the new leftover -/
def readLines (leftovers chunk : List Char) : List (List Char) × List Char :=
  let lines := splitCRLF (leftovers ++ chunk)
  (lines.dropLast, lines.getLastD [])

def readStep (acc : List (List Char) × List Char) (chunk : List Char) :
    List (List Char) × List Char :=
  let r := readLines acc.2 chunk
  (acc.1 ++ r.1, r.2)

/-- feeding a sequence of received chunks through the buffer, collecting
every yielded line, starting from an empty leftover buffer -/
def runReadLines (chunks : List (List Char)) : List (List Char) × List Char :=
  chunks.foldl readStep ([], [])

end Stargate

section CrlfLemmas

lemma consHead_ne_nil (c : Char) (s : List (List Char)) : consHead c s ≠ [] := by
  cases s <;> simp [consHead]

lemma splitCRLF_ne_nil (l : List Char) : splitCRLF l ≠ [] := by
  induction l using splitCRLF.induct with
  | case1 => simp [splitCRLF]
  | case2 c => simp [splitCRLF]
  | case3 c c' rest h ih =>
    rw [splitCRLF, if_pos h]
    simp
  | case4 c c' rest h ih =>
    rw [splitCRLF, if_neg h]
    exact consHead_ne_nil _ _

lemma joinCRLF_cons_ne (a : List Char) (s : List (List Char)) (hs : s ≠ []) :
    joinCRLF (a :: s) = a ++ CRLF ++ joinCRLF s := by
  cases s with
  | nil => exact absurd rfl hs
  | cons x xs => rfl

lemma joinCRLF_consHead (c : Char) (s : List (List Char)) (hs : s ≠ []) :
    joinCRLF (consHead c s) = c :: joinCRLF s := by
  cases s with
  | nil => exact absurd rfl hs
  | cons x xs => cases xs <;> rfl

lemma joinCRLF_splitCRLF (l : List Char) : joinCRLF (splitCRLF l) = l := by
  induction l using splitCRLF.induct with
  | case1 => rfl
  | case2 c => rfl
  | case3 c c' rest h ih =>
    rw [splitCRLF, if_pos h, joinCRLF_cons_ne _ _ (splitCRLF_ne_nil rest), ih]
    simp [CRLF, h.1, h.2]
  | case4 c c' rest h ih =>
    rw [splitCRLF, if_neg h, joinCRLF_consHead _ _ (splitCRLF_ne_nil _), ih]

lemma joinCRLF_eq_dropLast_getLast (p : List (List Char)) (hp : p ≠ []) :
    joinCRLF p = (p.dropLast.map (fun l => l ++ CRLF)).flatten ++ p.getLastD [] := by
  induction p with
  | nil => exact absurd rfl hp
  | cons x xs ih =>
    cases xs with
    | nil => simp [joinCRLF]
    | cons y ys =>
      rw [joinCRLF_cons_ne _ _ (by simp), ih (by simp)]
      simp [List.append_assoc]

lemma readLines_reassembles (leftovers chunk : List Char) :
    ((readLines leftovers chunk).1.map (fun l => l ++ CRLF)).flatten ++ (readLines leftovers chunk).2
      = leftovers ++ chunk := by
  unfold readLines
  rw [← joinCRLF_eq_dropLast_getLast _ (splitCRLF_ne_nil _), joinCRLF_splitCRLF]

lemma runReadLines_invariant (chunks : List (List Char)) :
    ∀ ls0 lf0 : _,
      ((chunks.foldl readStep (ls0, lf0)).1.map (fun l => l ++ CRLF)).flatten ++
        (chunks.foldl readStep (ls0, lf0)).2
      = (ls0.map (fun l => l ++ CRLF)).flatten ++ lf0 ++ chunks.flatten := by
  induction chunks with
  | nil => intro ls0 lf0; simp
  | cons ch chunks ih =>
    intro ls0 lf0
    have hstep : readStep (ls0, lf0) ch = (ls0 ++ (readLines lf0 ch).1, (readLines lf0 ch).2) := rfl
    rw [List.foldl_cons, hstep, ih]
    have hr := readLines_reassembles lf0 ch
    have key : ((readLines lf0 ch).1.map (fun l => l ++ CRLF)).flatten ++
        ((readLines lf0 ch).2 ++ chunks.flatten) = lf0 ++ (ch ++ chunks.flatten) := by
      rw [← List.append_assoc, hr, List.append_assoc]
    simp only [List.map_append, List.flatten_append, List.flatten_cons, List.append_assoc, key]

end CrlfLemmas

/-- C8: for every finite sequence of non-empty byte chunks fed to the CRLF
line buffer, the concatenation of all yielded lines each followed by CRLF,
plus the trailing leftover, equals the concatenation of the received chunks;
in particular a CRLF split across two chunks yields no line on the first
chunk and the completed line only on the second. -/
theorem crlf_buffer_reassembly (chunks : List (List Char)) (hne : ∀ ch ∈ chunks, ch ≠ []) :
    ((runReadLines chunks).1.map (fun l => l ++ CRLF)).flatten ++ (runReadLines chunks).2
        = chunks.flatten ∧
    readLines [] ['a', 'b', '\r'] = ([], ['a', 'b', '\r']) ∧
    readLines ['a', 'b', '\r'] ['\n', 'c', 'd'] = ([['a', 'b']], ['c', 'd']) := by
  refine ⟨?_, by decide, by decide⟩
  unfold runReadLines
  have := runReadLines_invariant chunks [] []
  simpa using this

theorem crlf_buffer_reassembly_witness :
    (∀ ch ∈ [['a', 'b', '\r'], ['\n', 'c', 'd']], ch ≠ ([] : List Char)) ∧
    (((runReadLines [['a', 'b', '\r'], ['\n', 'c', 'd']]).1.map (fun l => l ++ CRLF)).flatten ++
          (runReadLines [['a', 'b', '\r'], ['\n', 'c', 'd']]).2
        = [['a', 'b', '\r'], ['\n', 'c', 'd']].flatten ∧
      readLines [] ['a', 'b', '\r'] = ([], ['a', 'b', '\r']) ∧
      readLines ['a', 'b', '\r'] ['\n', 'c', 'd'] = ([['a', 'b']], ['c', 'd'])) :=
  ⟨by decide, crlf_buffer_reassembly [['a', 'b', '\r'], ['\n', 'c', 'd']] (by decide)⟩

namespace Stargate

/-! ### Lutron output cache (src/gateways/radiora2/ra_repeater.py)

`OutputCache` holds the last seen level for each output, button and LED
(the sentinel "stale" until a record arrives), the `refreshing` set of
iids with a refresh in flight, and the subscriber list.
`_mark_refresh_pending` does `self.refreshing.add(iid)` - a set add, a
no-op when the iid is already present.  `_broadcast_change` tries
`self.refreshing.remove(iid)`: on success the record is attributed to a
refresh (refresh=True), on `KeyError` it is a user action (refresh=False);
either way one `on_user_action(iid, state, refresh, comp_id)` is sent to
each subscriber.  `_record_led_state` stores the value but sends no
notification.  Levels and states are modelled as integers. -/

inductive LutronVal where
  | stale
  | lvl (n : Int)
deriving DecidableEq

/-- an `on_user_action(iid, state, refresh, comp_id)` call delivered to one
subscriber (subscribers are identified by their registration index) -/
structure LutronBroadcast where
  subscriber : Nat
  iid : Nat
  state : Int
  refresh : Bool
  comp_id : Nat
deriving DecidableEq

structure OutputCache where
  output_levels : Nat → Option LutronVal
  button_states : Nat → Option (Nat → Option LutronVal)
  led_states : Nat → Option (Nat → Option LutronVal)
  refreshing : List Nat
  subscribers : List Nat

/-- `OutputCache._mark_refresh_pending`: `self.refreshing.add(iid)` -/
def markRefreshPending (c : OutputCache) (iid : Nat) : OutputCache :=
  { c with refreshing := if iid ∈ c.refreshing then c.refreshing else c.refreshing ++ [iid] }

/-- `OutputCache._broadcast_change`: remove the iid from the refreshing set
if present, and send `on_user_action` with the resulting refresh flag to
every subscriber; returns the new cache, the flag, and the calls made -/
def broadcastChange (c : OutputCache) (iid : Nat) (state : Int) (comp_id : Nat) :
    OutputCache × Bool × List LutronBroadcast :=
  if iid ∈ c.refreshing then
    ({ c with refreshing := c.refreshing.erase iid }, true,
     c.subscribers.map (fun s => ⟨s, iid, state, true, comp_id⟩))
  else
    (c, false, c.subscribers.map (fun s => ⟨s, iid, state, false, comp_id⟩))

/-- `OutputCache._record_output_level` -/
def recordOutputLevel (c : OutputCache) (iid : Nat) (level : Int) :
    OutputCache × Bool × List LutronBroadcast :=
  broadcastChange
    { c with output_levels := fun i => if i = iid then some (LutronVal.lvl level) else c.output_levels i }
    iid level 0

/-- `OutputCache._record_button_state`; `none` models the `KeyError` on a
device that was never watched -/
def recordButtonState (c : OutputCache) (iid cid : Nat) (state : Int) :
    Option (OutputCache × Bool × List LutronBroadcast) :=
  match c.button_states iid with
  | none => none
  | some buttons =>
    some (broadcastChange
      { c with button_states := fun i =>
          if i = iid then some (fun b => if b = cid then some (LutronVal.lvl state) else buttons b)
          else c.button_states i }
      iid state cid)

/-- `OutputCache._record_led_state`: stores the value; no state change
notification is sent for LEDs -/
def recordLedState (c : OutputCache) (iid cid : Nat) (state : Int) :
    Option (OutputCache × List LutronBroadcast) :=
  match c.led_states iid with
  | none => none
  | some leds =>
    some ({ c with led_states := fun i =>
        if i = iid then some (fun b => if b = cid then some (LutronVal.lvl state) else leds b)
        else c.led_states i }, [])

/-- a refresh dispatch (`_refresh_output`) or an incoming record
(`_record_output_level`) for the output cache -/
inductive LutronOp where
  | refreshOutput (iid : Nat)
  | recordOutput (iid : Nat) (level : Int)

/-- run a sequence of refresh dispatches and records, collecting the
refresh flag each record was published with -/
def lutronRunFlags (c : OutputCache) : List LutronOp → OutputCache × List Bool
  | [] => (c, [])
  | LutronOp.refreshOutput iid :: rest => lutronRunFlags (markRefreshPending c iid) rest
  | LutronOp.recordOutput iid level :: rest =>
    let r := recordOutputLevel c iid level
    let rest' := lutronRunFlags r.1 rest
    (rest'.1, r.2.1 :: rest'.2)

/-- a cache watching output 5 and LED 83 of keypad 5 with one subscriber -/
def demoLutronCache : OutputCache :=
  { output_levels := fun i => if i = 5 then some LutronVal.stale else none,
    button_states := fun _ => none,
    led_states := fun i =>
      if i = 5 then some (fun b => if b = 83 then some LutronVal.stale else none) else none,
    refreshing := [],
    subscribers := [0] }

end Stargate

/-- C2 counterexample: dispatching two refreshes for output 5 and then
receiving two records publishes refresh flags [true, false], not the
[true, true] the per-iid-counter claim requires - the second outstanding
refresh does not absorb a record, because `refreshing` is a set. -/
theorem lutron_refresh_counter_counterexample :
    (lutronRunFlags demoLutronCache
      [LutronOp.refreshOutput 5, LutronOp.refreshOutput 5,
       LutronOp.recordOutput 5 10, LutronOp.recordOutput 5 20]).2 = [true, false] ∧
    ([true, false] : List Bool) ≠ [true, true] :=
  ⟨rfl, by decide⟩

/-- C2 amended: pending refreshes are tracked per iid by set membership -
each refresh dispatch adds the iid (idempotently), each incoming record
removes it if present and is published with refresh=True iff it was
present; hence after any record for an iid the set no longer contains it,
an immediately following record publishes refresh=False, and a record
after a dispatch publishes refresh=True. -/
theorem lutron_refresh_set_semantics (c : OutputCache) (iid : Nat) (level level' : Int)
    (hnd : c.refreshing.Nodup) :
    (recordOutputLevel c iid level).2.1 = decide (iid ∈ c.refreshing) ∧
    iid ∉ (recordOutputLevel c iid level).1.refreshing ∧
    (recordOutputLevel (recordOutputLevel c iid level).1 iid level').2.1 = false ∧
    (recordOutputLevel (markRefreshPending c iid) iid level).2.1 = true ∧
    iid ∈ (markRefreshPending c iid).refreshing := by
  have hflag : ∀ c' : OutputCache, (recordOutputLevel c' iid level').2.1 = decide (iid ∈ c'.refreshing) := by
    intro c'
    unfold recordOutputLevel broadcastChange
    by_cases h : iid ∈ c'.refreshing <;> simp [h]
  have hmem : iid ∉ (recordOutputLevel c iid level).1.refreshing := by
    unfold recordOutputLevel broadcastChange
    by_cases h : iid ∈ c.refreshing <;> simp [h]
    exact hnd.not_mem_erase
  refine ⟨?_, hmem, ?_, ?_, ?_⟩
  · unfold recordOutputLevel broadcastChange
    by_cases h : iid ∈ c.refreshing <;> simp [h]
  · rw [hflag]
    simp [hmem]
  · unfold recordOutputLevel broadcastChange markRefreshPending
    by_cases h : iid ∈ c.refreshing <;> simp [h]
  · unfold markRefreshPending
    by_cases h : iid ∈ c.refreshing <;> simp [h]

theorem lutron_refresh_set_semantics_witness :
    demoLutronCache.refreshing.Nodup ∧
    ((recordOutputLevel demoLutronCache 5 10).2.1 = decide (5 ∈ demoLutronCache.refreshing) ∧
    5 ∉ (recordOutputLevel demoLutronCache 5 10).1.refreshing ∧
    (recordOutputLevel (recordOutputLevel demoLutronCache 5 10).1 5 20).2.1 = false ∧
    (recordOutputLevel (markRefreshPending demoLutronCache 5) 5 10).2.1 = true ∧
    5 ∈ (markRefreshPending demoLutronCache 5).refreshing) :=
  ⟨by decide, lutron_refresh_set_semantics demoLutronCache 5 10 20 (by decide)⟩

/-- C9 counterexample: recording an LED state broadcasts no
`on_user_action` at all, even with a registered subscriber - the claim
that every recorded value (including LED states) is broadcast exactly
once per subscriber is false. -/
theorem lutron_led_record_no_broadcast_counterexample :
    (recordLedState demoLutronCache 5 83 1).map (fun r => r.2) = some [] ∧
    demoLutronCache.subscribers ≠ [] :=
  ⟨rfl, by decide⟩

/-- C9 amended: recording an output level or a button state broadcasts
exactly one `on_user_action(iid, state, refresh, comp_id)` to every
registered subscriber; recording an LED state updates the cache but
broadcasts nothing. -/
theorem lutron_record_broadcasts (c : OutputCache) (iid cid : Nat) (level state : Int) :
    ((recordOutputLevel c iid level).2.2 =
      c.subscribers.map (fun s => ⟨s, iid, level, (recordOutputLevel c iid level).2.1, 0⟩)) ∧
    ((recordButtonState c iid cid state).map (fun r => r.2.2) =
      (recordButtonState c iid cid state).map
        (fun r => c.subscribers.map (fun s => ⟨s, iid, state, r.2.1, cid⟩))) ∧
    ((recordLedState c iid cid state).map (fun r => r.2) =
      (recordLedState c iid cid state).map (fun _ => [])) := by
  refine ⟨?_, ?_, ?_⟩
  · unfold recordOutputLevel broadcastChange
    by_cases h : iid ∈ c.refreshing <;> simp [h]
  · unfold recordButtonState
    cases hb : c.button_states iid with
    | none => rfl
    | some buttons =>
      unfold broadcastChange
      by_cases h : iid ∈ c.refreshing <;> simp [h]
  · unfold recordLedState
    cases hb : c.led_states iid with
    | none => rfl
    | some leds => rfl

namespace Stargate

/-! ### Timer dispatch (src/timer.py)

`SgTimer.time_until_next_event` iterates the event list accumulating the
minimum fire time in `earliest`, then computes
`delay = event.when - time.time()` from the loop variable `event` - the
LAST element of the list - clamping negative delays to 0, and returns no
bound when the list is empty. -/

structure TimerEvent where
  token : Nat
  fire_at : Int

/-- the `earliest` accumulator of the scan loop -/
def earliestFireTime (timers : List TimerEvent) : Option Int :=
  timers.foldl
    (fun earliest e =>
      match earliest with
      | none => some e.fire_at
      | some w => if e.fire_at < w then some e.fire_at else some w)
    none

/-- `SgTimer.time_until_next_event`: the delay is taken from the final
value of the loop variable, i.e. the last event in the list -/
def time_until_next_event (timers : List TimerEvent) (now : Int) : Option Int :=
  match earliestFireTime timers, timers.getLast? with
  | none, _ => none
  | some _, none => none
  | some _, some e => some (if e.fire_at - now < 0 then 0 else e.fire_at - now)

end Stargate

/-- C4: with pending events firing at 5 and 10 (in that order) and now = 0,
the dispatcher's computed sleep duration is 10 - the fire time of the last
list element - although the earliest pending event fires at 5; the claimed
sleep-until-earliest behavior does not hold. -/
theorem timer_sleep_uses_last_event_not_earliest :
    time_until_next_event [⟨1, 5⟩, ⟨2, 10⟩] 0 = some 10 ∧
    earliestFireTime [⟨1, 5⟩, ⟨2, 10⟩] = some 5 ∧
    time_until_next_event [⟨1, 5⟩, ⟨2, 10⟩] 0 ≠ some 5 :=
  ⟨rfl, rfl, by decide⟩

namespace Stargate

/-! ### Device-state statistics (src/persistence.py)

The persistence layer keeps a `device_status` row per device
(`last_seen_event_ts`, `last_tallied_ts`, `last_state`) and a
`change_history_buckets` row (`num_changes`, `on_time`, `off_time`).
`_clear_transient_values` (run at construction) resets every row's
`last_tallied_ts` to NULL and `last_state` to the unknown sentinel -1.
`_tally_device_state_history` bills the elapsed interval to `off_time`
when the previous state was 0, to `on_time` when it was positive, and
discards it when the previous state is -1.  Timestamps are integers;
a missing dictionary row models a missing table row. -/

structure DeviceStatus where
  last_seen_event_ts : Option Int
  last_tallied_ts : Option Int
  last_state : Int
deriving DecidableEq

structure HistoryBucket where
  num_changes : Nat
  on_time : Int
  off_time : Int
deriving DecidableEq

structure PersistState where
  status : Nat → Option DeviceStatus
  history : Nat → Option HistoryBucket

/-- `SgPersistence._get_device_prev_state`: -1 when there is no row -/
def getDevicePrevState (s : PersistState) (dev : Nat) : Int :=
  match s.status dev with
  | some row => row.last_state
  | none => -1

/-- `SgPersistence._get_device_timedelta` for the `last_tallied` column:
`none` models the NULL-or-missing case where no delta is known -/
def getDeviceTimedelta (s : PersistState) (dev : Nat) (now : Int) : Option Int :=
  match s.status dev with
  | some row =>
    match row.last_tallied_ts with
    | some ts => some (now - ts)
    | none => none
  | none => none

/-- `SgPersistence._get_history_bucket`: a fake all-zero row when absent -/
def getHistoryBucket (s : PersistState) (dev : Nat) : HistoryBucket :=
  (s.history dev).getD ⟨0, 0, 0⟩

/-- `SgPersistence._tally_device_state_history`: bill the elapsed time to
on_time/off_time according to the previous state, bump `num_changes` when
this tally accompanies a change, and advance `last_tallied_ts` (the SQL
UPDATE touches only an existing row) -/
def tallyDeviceStateHistory (s : PersistState) (dev : Nat) (prev : Int) (delta : Option Int)
    (now : Int) (changed : Bool) : PersistState :=
  let t := delta.getD 0
  let h := getHistoryBucket s dev
  let totals :=
    if prev = 0 then (h.on_time, h.off_time + t)
    else if 0 < prev then (h.on_time + t, h.off_time)
    else (h.on_time, h.off_time)
  let nc := if changed then h.num_changes + 1 else h.num_changes
  { history := fun d => if d = dev then some ⟨nc, totals.1, totals.2⟩ else s.history d,
    status := fun d =>
      if d = dev then (s.status dev).map (fun r => { r with last_tallied_ts := some now })
      else s.status d }

/-- `SgPersistence.on_device_state_change`: the INSERT OR REPLACE writes a
fresh row (implicitly nulling `last_tallied_ts`), then the tally runs with
the previously read state and delta -/
def onDeviceStateChange (s : PersistState) (dev : Nat) (state : Int) (now : Int) : PersistState :=
  let prev := getDevicePrevState s dev
  let delta := getDeviceTimedelta s dev now
  let s1 : PersistState :=
    { s with status := fun d => if d = dev then some ⟨some now, none, state⟩ else s.status d }
  tallyDeviceStateHistory s1 dev prev delta now true

/-- `SgPersistence._checkpoint_device_state` -/
def checkpointDeviceState (s : PersistState) (dev : Nat) (now : Int) : PersistState :=
  tallyDeviceStateHistory s dev (getDevicePrevState s dev) (getDeviceTimedelta s dev now) now false

/-- `SgPersistence.init_device_state`: INSERT OR REPLACE with
`last_seen_event_ts` implicitly NULL -/
def initDeviceState (s : PersistState) (dev : Nat) (state : Int) (now : Int) : PersistState :=
  { s with status := fun d => if d = dev then some ⟨none, some now, state⟩ else s.status d }

/-- `SgPersistence._clear_transient_values`, run at construction -/
def clearTransientValues (s : PersistState) : PersistState :=
  { s with status := fun d =>
      (s.status d).map (fun r => { r with last_tallied_ts := none, last_state := -1 }) }

/-- the state-mutating operations available during a run -/
inductive PersistOp where
  | change (dev : Nat) (state : Int) (now : Int)
  | checkpoint (dev : Nat) (now : Int)
  | restartInit (dev : Nat) (state : Int) (now : Int)

def runPersistOps (s : PersistState) : List PersistOp → PersistState
  | [] => s
  | PersistOp.change dev state now :: rest => runPersistOps (onDeviceStateChange s dev state now) rest
  | PersistOp.checkpoint dev now :: rest => runPersistOps (checkpointDeviceState s dev now) rest
  | PersistOp.restartInit dev state now :: rest => runPersistOps (initDeviceState s dev state now) rest

/-- whether the operation observes the given device's state (a state
change notification or a startup initialization for it) -/
def observesDevice (dev : Nat) : PersistOp → Bool
  | PersistOp.change d _ _ => d = dev
  | PersistOp.restartInit d _ _ => d = dev
  | PersistOp.checkpoint _ _ => false

def onOffTotal (s : PersistState) (dev : Nat) : Int :=
  (getHistoryBucket s dev).on_time + (getHistoryBucket s dev).off_time

def emptyPersistState : PersistState := ⟨fun _ => none, fun _ => none⟩

end Stargate

section PersistenceLemmas

lemma getHistoryBucket_tally_ne (s : PersistState) (dev d : Nat) (p : Int) (δ : Option Int)
    (n : Int) (ch : Bool) (hd : d ≠ dev) :
    getHistoryBucket (tallyDeviceStateHistory s dev p δ n ch) d = getHistoryBucket s d := by
  simp [tallyDeviceStateHistory, getHistoryBucket, hd]

lemma getDevicePrevState_tally (s : PersistState) (dev : Nat) (p : Int) (δ : Option Int)
    (n : Int) (ch : Bool) (d : Nat) :
    getDevicePrevState (tallyDeviceStateHistory s dev p δ n ch) d = getDevicePrevState s d := by
  unfold getDevicePrevState tallyDeviceStateHistory
  by_cases hd : d = dev
  · subst hd
    cases hst : s.status d <;> simp [hst]
  · simp [hd]

lemma onOffTotal_tally_unknown (s : PersistState) (dev : Nat) (δ : Option Int)
    (n : Int) (ch : Bool) :
    onOffTotal (tallyDeviceStateHistory s dev (-1) δ n ch) dev = onOffTotal s dev := by
  unfold onOffTotal tallyDeviceStateHistory getHistoryBucket
  simp

lemma run_no_observe (dev : Nat) (ops : List PersistOp) :
    ∀ s : PersistState, (∀ op ∈ ops, observesDevice dev op = false) →
      getDevicePrevState s dev = -1 →
      onOffTotal (runPersistOps s ops) dev = onOffTotal s dev ∧
      getDevicePrevState (runPersistOps s ops) dev = -1 := by
  induction ops with
  | nil => exact fun s _ h => ⟨rfl, h⟩
  | cons op rest ih =>
    intro s hno hprev
    have hrest : ∀ op ∈ rest, observesDevice dev op = false :=
      fun o ho => hno o (List.mem_cons_of_mem _ ho)
    cases op with
    | change d st n =>
      have hd : d ≠ dev := by
        have := hno _ (List.mem_cons_self _ _)
        simpa [observesDevice] using this
      have h1 : getDevicePrevState (onDeviceStateChange s d st n) dev = -1 := by
        unfold onDeviceStateChange
        rw [getDevicePrevState_tally]
        unfold getDevicePrevState at hprev ⊢
        simpa [Ne.symm hd] using hprev
      have h2 : onOffTotal (onDeviceStateChange s d st n) dev = onOffTotal s dev := by
        unfold onOffTotal onDeviceStateChange
        rw [getHistoryBucket_tally_ne _ _ _ _ _ _ _ (Ne.symm hd)]
        rfl
      have := ih (onDeviceStateChange s d st n) hrest h1
      simp only [runPersistOps]
      exact ⟨this.1.trans h2, this.2⟩
    | checkpoint d n =>
      have h1 : getDevicePrevState (checkpointDeviceState s d n) dev = -1 := by
        unfold checkpointDeviceState
        rw [getDevicePrevState_tally]
        exact hprev
      have h2 : onOffTotal (checkpointDeviceState s d n) dev = onOffTotal s dev := by
        unfold checkpointDeviceState
        by_cases hd : d = dev
        · subst hd
          rw [hprev]
          exact onOffTotal_tally_unknown s d _ n false
        · unfold onOffTotal
          rw [getHistoryBucket_tally_ne _ _ _ _ _ _ _ (Ne.symm hd)]
      have := ih (checkpointDeviceState s d n) hrest h1
      simp only [runPersistOps]
      exact ⟨this.1.trans h2, this.2⟩
    | restartInit d st n =>
      have hd : d ≠ dev := by
        have := hno _ (List.mem_cons_self _ _)
        simpa [observesDevice] using this
      have h1 : getDevicePrevState (initDeviceState s d st n) dev = -1 := by
        unfold getDevicePrevState at hprev
        unfold getDevicePrevState initDeviceState
        simpa [Ne.symm hd] using hprev
      have h2 : onOffTotal (initDeviceState s d st n) dev = onOffTotal s dev := rfl
      have := ih (initDeviceState s d st n) hrest h1
      simp only [runPersistOps]
      exact ⟨this.1.trans h2, this.2⟩

end PersistenceLemmas

/-- C10: time in an unknown device state is never billed to the on/off
totals: clearing the transient values resets every device's last_state to
the sentinel -1 and last_tallied_ts to NULL; the tally bills an interval
to on_time only when the previous state was positive and to off_time only
when it was 0, discarding unknown (-1) intervals; hence across any
sequence of state-change, checkpoint and startup operations that never
observes a device's state during the run, that device's on/off totals do
not change. -/
theorem persistence_unknown_state_never_billed (s0 : PersistState) (dev : Nat) (now : Int)
    (prev : Int) (delta : Option Int) (changed : Bool) (ops : List PersistOp)
    (hno : ∀ op ∈ ops, observesDevice dev op = false) :
    getDevicePrevState (clearTransientValues s0) dev = -1 ∧
    getDeviceTimedelta (clearTransientValues s0) dev now = none ∧
    (getHistoryBucket (tallyDeviceStateHistory s0 dev prev delta now changed) dev).on_time
      = (getHistoryBucket s0 dev).on_time + (if 0 < prev then delta.getD 0 else 0) ∧
    (getHistoryBucket (tallyDeviceStateHistory s0 dev prev delta now changed) dev).off_time
      = (getHistoryBucket s0 dev).off_time + (if prev = 0 then delta.getD 0 else 0) ∧
    onOffTotal (runPersistOps (clearTransientValues s0) ops) dev
      = onOffTotal (clearTransientValues s0) dev := by
  have hclear : getDevicePrevState (clearTransientValues s0) dev = -1 := by
    unfold getDevicePrevState clearTransientValues
    cases hst : s0.status dev <;> simp [hst]
  refine ⟨hclear, ?_, ?_, ?_, (run_no_observe dev ops _ hno hclear).1⟩
  · unfold getDeviceTimedelta clearTransientValues
    cases hst : s0.status dev <;> simp [hst]
  · unfold tallyDeviceStateHistory getHistoryBucket
    by_cases h0 : prev = 0
    · simp [h0]
    · by_cases hp : 0 < prev <;> simp [h0, hp]
  · unfold tallyDeviceStateHistory getHistoryBucket
    by_cases h0 : prev = 0
    · simp [h0, show ¬ (0 : Int) < 0 by omega]
    · by_cases hp : 0 < prev <;> simp [h0, hp]

theorem persistence_unknown_state_never_billed_witness :
    (∀ op ∈ [PersistOp.checkpoint 1 50, PersistOp.change 2 1 60, PersistOp.checkpoint 1 70],
      observesDevice 1 op = false) ∧
    (getDevicePrevState (clearTransientValues emptyPersistState) 1 = -1 ∧
    getDeviceTimedelta (clearTransientValues emptyPersistState) 1 100 = none ∧
    (getHistoryBucket (tallyDeviceStateHistory emptyPersistState 1 (-1) (some 7) 100 true) 1).on_time
      = (getHistoryBucket emptyPersistState 1).on_time + (if (0 : Int) < -1 then (some (7 : Int)).getD 0 else 0) ∧
    (getHistoryBucket (tallyDeviceStateHistory emptyPersistState 1 (-1) (some 7) 100 true) 1).off_time
      = (getHistoryBucket emptyPersistState 1).off_time + (if (-1 : Int) = 0 then (some (7 : Int)).getD 0 else 0) ∧
    onOffTotal (runPersistOps (clearTransientValues emptyPersistState)
        [PersistOp.checkpoint 1 50, PersistOp.change 2 1 60, PersistOp.checkpoint 1 70]) 1
      = onOffTotal (clearTransientValues emptyPersistState) 1) :=
  ⟨by decide, persistence_unknown_state_never_billed emptyPersistState 1 100 (-1) (some 7) true
    [PersistOp.checkpoint 1 50, PersistOp.change 2 1 60, PersistOp.checkpoint 1 70] (by decide)⟩

namespace Stargate

/-! ### Event-log persistence (modelled from the spec)

The event-log persistence layer - `record_change`, `record_startup`,
`checkpoint_all` and the age-limited `get_action_count` over a
`device_events` table - is invoked from src/events.py and src/sg_house.py,
but the module defining it is not present in the source tree (the
persistence module shipped there is the older bucket-based one).  The
definitions below are modelled from the spec's description of those
operations. -/

inductive EventKind where
  | changed
  | checkpoint
  | restart
deriving DecidableEq

structure DeviceEvent where
  dev : Nat
  kind : EventKind
  level : Int
  ts : Int
deriving DecidableEq

/-- the events of one device, oldest first -/
def devEvents (log : List DeviceEvent) (dev : Nat) : List DeviceEvent :=
  log.filter (fun e => e.dev = dev)

/-- the device's newest event -/
def newestEventOf (log : List DeviceEvent) (dev : Nat) : Option DeviceEvent :=
  (devEvents log dev).getLast?

/-- overwrite the device's newest event in place -/
def replaceNewestOf : List DeviceEvent → Nat → DeviceEvent → List DeviceEvent
  | [], _, _ => []
  | e :: rest, dev, e' =>
    if rest.any (fun x => x.dev = dev) then e :: replaceNewestOf rest dev e'
    else if e.dev = dev then e' :: rest
    else e :: replaceNewestOf rest dev e'

/-- Modelled from the spec: `record_change(device_id, level)` inserts a
CHANGED event, except that when the device's newest prior event is a
CHECKPOINT that checkpoint is overwritten in place with the CHANGED event. -/
def record_change (log : List DeviceEvent) (dev : Nat) (level ts : Int) : List DeviceEvent :=
  if (newestEventOf log dev).map (fun e => e.kind) = some EventKind.checkpoint then
    replaceNewestOf log dev ⟨dev, EventKind.changed, level, ts⟩
  else
    log ++ [⟨dev, EventKind.changed, level, ts⟩]

/-- Modelled from the spec: `record_startup(device_id, level)` inserts a
RESTART event. -/
def record_startup (log : List DeviceEvent) (dev : Nat) (level ts : Int) : List DeviceEvent :=
  log ++ [⟨dev, EventKind.restart, level, ts⟩]

/-- Modelled from the spec: the per-device step of `checkpoint_all()` -
emit or coalesce a CHECKPOINT event carrying the device's most recent
level; a device with no events has no known level and is left alone -/
def checkpoint_one (log : List DeviceEvent) (dev : Nat) (now : Int) : List DeviceEvent :=
  match newestEventOf log dev with
  | none => log
  | some e =>
    if e.kind = EventKind.checkpoint then
      replaceNewestOf log dev ⟨dev, EventKind.checkpoint, e.level, now⟩
    else
      log ++ [⟨dev, EventKind.checkpoint, e.level, now⟩]

/-- Modelled from the spec: `checkpoint_all()` runs the checkpoint step
for each known device. -/
def checkpoint_all (log : List DeviceEvent) (devs : List Nat) (now : Int) : List DeviceEvent :=
  devs.foldl (fun l d => checkpoint_one l d now) log

/-- Modelled from the spec: `get_action_count(device_id, age_limit)` counts
the device's CHANGED events newer than `now - age_limit`. -/
def get_action_count : List DeviceEvent → Nat → Int → Int → Nat
  | [], _, _, _ => 0
  | e :: rest, dev, now, age =>
    (if e.dev = dev ∧ e.kind = EventKind.changed ∧ now - age < e.ts then 1 else 0) +
      get_action_count rest dev now age

end Stargate

/-- C3: for every device and every age limit, `get_action_count` returns
exactly the number of that device's CHANGED events whose timestamp is
newer than now minus the age limit. -/
theorem get_action_count_counts_recent_changed (log : List DeviceEvent) (dev : Nat)
    (now age : Int) :
    get_action_count log dev now age =
      (log.filter (fun e =>
        decide (e.dev = dev ∧ e.kind = EventKind.changed ∧ now - age < e.ts))).length := by
  induction log with
  | nil => rfl
  | cons e rest ih =>
    rw [get_action_count, ih, List.filter_cons]
    by_cases h : e.dev = dev ∧ e.kind = EventKind.changed ∧ now - age < e.ts
    · simp [h, Nat.add_comm]
    · simp [h]

section EventLogLemmas

lemma devEvents_cons_pos (e : DeviceEvent) (l : List DeviceEvent) (dev : Nat) (h : e.dev = dev) :
    devEvents (e :: l) dev = e :: devEvents l dev := by
  simp [devEvents, h]

lemma devEvents_cons_neg (e : DeviceEvent) (l : List DeviceEvent) (dev : Nat) (h : ¬ e.dev = dev) :
    devEvents (e :: l) dev = devEvents l dev := by
  simp [devEvents, h]

lemma devEvents_append (log : List DeviceEvent) (e : DeviceEvent) (dev : Nat) :
    devEvents (log ++ [e]) dev = devEvents log dev ++ (if e.dev = dev then [e] else []) := by
  unfold devEvents
  rw [List.filter_append]
  by_cases h : e.dev = dev <;> simp [h]

lemma devEvents_nil_iff (l : List DeviceEvent) (dev : Nat) :
    devEvents l dev = [] ↔ ∀ x ∈ l, ¬ x.dev = dev := by
  simp [devEvents, List.filter_eq_nil_iff]

lemma dropLast_cons_ne_nil (e : DeviceEvent) (l : List DeviceEvent) (hl : l ≠ []) :
    (e :: l).dropLast = e :: l.dropLast := by
  cases l with
  | nil => exact absurd rfl hl
  | cons x xs => rfl

lemma devEvents_replaceNewest (dev : Nat) (e' : DeviceEvent) (he : e'.dev = dev) :
    ∀ log : List DeviceEvent, devEvents log dev ≠ [] →
      devEvents (replaceNewestOf log dev e') dev = (devEvents log dev).dropLast ++ [e'] := by
  intro log
  induction log with
  | nil => intro h; exact absurd rfl h
  | cons e rest ih =>
    intro hne
    rw [replaceNewestOf]
    by_cases hany : rest.any (fun x => x.dev = dev)
    · rw [if_pos hany]
      have hrest : devEvents rest dev ≠ [] := by
        intro hnil
        rw [devEvents_nil_iff] at hnil
        rcases List.any_eq_true.mp hany with ⟨x, hx, hpx⟩
        exact hnil x hx (by simpa using hpx)
      by_cases hd : e.dev = dev
      · rw [devEvents_cons_pos _ _ _ hd, ih hrest, devEvents_cons_pos _ _ _ hd,
            dropLast_cons_ne_nil _ _ hrest, List.cons_append]
      · rw [devEvents_cons_neg _ _ _ hd, ih hrest, devEvents_cons_neg _ _ _ hd]
    · rw [if_neg hany]
      have hrest : devEvents rest dev = [] := by
        rw [devEvents_nil_iff]
        intro x hx hpx
        exact hany (List.any_eq_true.mpr ⟨x, hx, by simpa using hpx⟩)
      by_cases hd : e.dev = dev
      · rw [if_pos hd, devEvents_cons_pos _ _ _ (by rw [he]), devEvents_cons_pos _ _ _ hd, hrest]
        rfl
      · exact absurd ((devEvents_cons_neg _ _ _ hd).trans hrest) hne

lemma devEvents_replaceNewest_ne (d dev : Nat) (e' : DeviceEvent) (hd : ¬ d = dev)
    (he : e'.dev = d) :
    ∀ log : List DeviceEvent, devEvents (replaceNewestOf log d e') dev = devEvents log dev := by
  intro log
  induction log with
  | nil => rfl
  | cons e rest ih =>
    rw [replaceNewestOf]
    by_cases hany : rest.any (fun x => x.dev = d)
    · rw [if_pos hany]
      by_cases hed : e.dev = dev
      · rw [devEvents_cons_pos _ _ _ hed, devEvents_cons_pos _ _ _ hed, ih]
      · rw [devEvents_cons_neg _ _ _ hed, devEvents_cons_neg _ _ _ hed, ih]
    · rw [if_neg hany]
      by_cases hed2 : e.dev = d
      · rw [if_pos hed2,
            devEvents_cons_neg _ _ _ (by rw [he]; exact hd),
            devEvents_cons_neg _ _ _ (by rw [hed2]; exact hd)]
      · rw [if_neg hed2]
        by_cases hed : e.dev = dev
        · rw [devEvents_cons_pos _ _ _ hed, devEvents_cons_pos _ _ _ hed, ih]
        · rw [devEvents_cons_neg _ _ _ hed, devEvents_cons_neg _ _ _ hed, ih]

/-- invariant through `checkpoint_all` relative to a starting log whose
newest event for the device is not a CHECKPOINT: either the device's
events are untouched, or exactly one CHECKPOINT has been appended (later
checkpoints coalesce into it in place) -/
def CPInv (orig l : List DeviceEvent) (dev : Nat) : Prop :=
  (devEvents l dev = devEvents orig dev ∧
    ((devEvents l dev).getLast?).map (fun e => e.kind) ≠ some EventKind.checkpoint)
  ∨ ((devEvents l dev).length = (devEvents orig dev).length + 1 ∧
    ((devEvents l dev).getLast?).map (fun e => e.kind) = some EventKind.checkpoint)

lemma checkpoint_one_other (l : List DeviceEvent) (d dev : Nat) (now : Int) (hd : ¬ d = dev) :
    devEvents (checkpoint_one l d now) dev = devEvents l dev := by
  unfold checkpoint_one
  cases hnw : newestEventOf l d with
  | none => rfl
  | some e =>
    dsimp only
    by_cases hk : e.kind = EventKind.checkpoint
    · rw [if_pos hk]
      exact devEvents_replaceNewest_ne d dev _ hd rfl l
    · rw [if_neg hk, devEvents_append]
      simp [hd]

lemma cpinv_step (orig l : List DeviceEvent) (dev d : Nat) (now : Int)
    (h : CPInv orig l dev) : CPInv orig (checkpoint_one l d now) dev := by
  by_cases hd : d = dev
  · subst hd
    unfold checkpoint_one
    cases hnw : newestEventOf l d with
    | none => exact h
    | some e =>
      dsimp only
      have hgl : (devEvents l d).getLast? = some e := hnw
      by_cases hk : e.kind = EventKind.checkpoint
      · rw [if_pos hk]
        rcases h with ⟨heq, hne⟩ | ⟨hlen, hcp⟩
        · exact absurd (by rw [hgl]; simp [hk]) hne
        · have hne : devEvents l d ≠ [] := by
            intro hnil; rw [hnil] at hgl; exact absurd hgl (by simp)
          right
          rw [devEvents_replaceNewest d _ rfl l hne]
          constructor
          · rw [List.length_append, List.length_dropLast]
            have := List.length_pos_of_ne_nil hne
            simp only [List.length_cons, List.length_nil]
            omega
          · rw [List.getLast?_concat]
            rfl
      · rw [if_neg hk]
        rcases h with ⟨heq, hne⟩ | ⟨hlen, hcp⟩
        · right
          rw [devEvents_append]
          constructor
          · simp [heq]
          · simp
        · exact absurd (by rw [hgl] at hcp; simpa using hcp) hk
  · rcases h with ⟨heq, hne⟩ | ⟨hlen, hcp⟩
    · exact Or.inl (by rw [checkpoint_one_other l d dev now hd]; exact ⟨heq, hne⟩)
    · exact Or.inr (by rw [checkpoint_one_other l d dev now hd]; exact ⟨hlen, hcp⟩)

lemma checkpoint_all_cons (l : List DeviceEvent) (d : Nat) (ds : List Nat) (now : Int) :
    checkpoint_all l (d :: ds) now = checkpoint_all (checkpoint_one l d now) ds now := by
  rw [checkpoint_all, checkpoint_all, List.foldl_cons]

lemma cpinv_fold (orig : List DeviceEvent) (dev : Nat) (now : Int) :
    ∀ (devs : List Nat) (l : List DeviceEvent),
      CPInv orig l dev → CPInv orig (checkpoint_all l devs now) dev := by
  intro devs
  induction devs with
  | nil => exact fun l h => h
  | cons d ds ih =>
    intro l h
    rw [checkpoint_all_cons]
    exact ih _ (cpinv_step orig l dev d now h)

lemma record_change_not_cp (log : List DeviceEvent) (dev : Nat) (level ts : Int)
    (h : (newestEventOf log dev).map (fun e => e.kind) ≠ some EventKind.checkpoint) :
    devEvents (record_change log dev level ts) dev
      = devEvents log dev ++ [⟨dev, EventKind.changed, level, ts⟩] := by
  unfold record_change
  rw [if_neg h, devEvents_append]
  simp

lemma record_change_cp (log : List DeviceEvent) (dev : Nat) (level ts : Int)
    (h : (newestEventOf log dev).map (fun e => e.kind) = some EventKind.checkpoint) :
    devEvents (record_change log dev level ts) dev
      = (devEvents log dev).dropLast ++ [⟨dev, EventKind.changed, level, ts⟩] := by
  unfold record_change
  rw [if_pos h]
  refine devEvents_replaceNewest dev _ rfl log ?_
  intro hnil
  unfold newestEventOf at h
  rw [hnil] at h
  simp at h

end EventLogLemmas

/-- C1: `record_change` inserts a CHANGED event except that a newest prior
CHECKPOINT is overwritten in place; consequently, for a device whose
newest event is not a checkpoint, two consecutive `record_change` calls
grow the device's event log by two events, while `checkpoint_all`
immediately followed by `record_change` grows it by one event, not two. -/
theorem record_change_checkpoint_growth (log : List DeviceEvent) (dev : Nat)
    (l1 l2 l3 t1 t2 t3 now : Int) (devs : List Nat)
    (hnc : (newestEventOf log dev).map (fun e => e.kind) ≠ some EventKind.checkpoint) :
    (devEvents (record_change (record_change log dev l1 t1) dev l2 t2) dev).length
      = (devEvents log dev).length + 2 ∧
    (devEvents (record_change (checkpoint_all log devs now) dev l3 t3) dev).length
      = (devEvents log dev).length + 1 := by
  constructor
  · have h1 := record_change_not_cp log dev l1 t1 hnc
    have hnew : (newestEventOf (record_change log dev l1 t1) dev).map (fun e => e.kind)
        ≠ some EventKind.checkpoint := by
      unfold newestEventOf
      rw [h1, List.getLast?_concat]
      simp
    rw [record_change_not_cp _ dev l2 t2 hnew, h1]
    simp
  · have hinv : CPInv log (checkpoint_all log devs now) dev :=
      cpinv_fold log dev now devs log (Or.inl ⟨rfl, hnc⟩)
    rcases hinv with ⟨heq, hk⟩ | ⟨hlen, hk⟩
    · rw [record_change_not_cp _ dev l3 t3 hk, heq]
      simp
    · rw [record_change_cp _ dev l3 t3 hk]
      have hne : devEvents (checkpoint_all log devs now) dev ≠ [] := by
        intro hnil; rw [hnil] at hk; simp at hk
      rw [List.length_append, List.length_dropLast]
      have := List.length_pos_of_ne_nil hne
      simp only [List.length_cons, List.length_nil]
      omega

theorem record_change_checkpoint_growth_witness :
    ((newestEventOf [⟨1, EventKind.restart, 0, 0⟩] 1).map (fun e => e.kind)
        ≠ some EventKind.checkpoint) ∧
    ((devEvents (record_change (record_change [⟨1, EventKind.restart, 0, 0⟩] 1 50 10) 1 75 20) 1).length
        = (devEvents [⟨1, EventKind.restart, 0, 0⟩] 1).length + 2 ∧
      (devEvents (record_change (checkpoint_all [⟨1, EventKind.restart, 0, 0⟩] [1, 2] 30) 1 80 40) 1).length
        = (devEvents [⟨1, EventKind.restart, 0, 0⟩] 1).length + 1) :=
  ⟨by decide,
    record_change_checkpoint_growth [⟨1, EventKind.restart, 0, 0⟩] 1 50 75 80 10 20 40 30 [1, 2]
      (by decide)⟩

namespace Stargate

/-! ### Gateway loader (src/gateways/__init__.py)

`load_all` loads the configured gateway plugins, queries their
dependencies, partitions them into `ready` (no dependencies) and
`pending`, and repeatedly pops any ready plugin and initializes it; on
success the plugin is registered and removed from the dependency lists of
the plugins waiting on it, promoting newly dependency-free plugins to
`ready`; on failure nothing is promoted, so everything depending on the
failed plugin stays pending and is reported as broken at the end.
A plugin is modelled by its name, its dependency set, and whether its
`init` succeeds; set iteration order is modelled by list order, which the
proved properties do not depend on.  Each init attempt records the
snapshot of successfully initialized names at that moment. -/

structure Plugin where
  name : String
  deps : List String
  ok : Bool
deriving DecidableEq

structure LoadState where
  ready : List Plugin
  pending : List Plugin
  inited : List String
  attempts : List (String × List String)
deriving DecidableEq

/-- `source.deps.remove(gateway_info.name)` applied on successful init -/
def stripDep (n : String) (p : Plugin) : Plugin :=
  { p with deps := p.deps.filter (fun d => d ≠ n) }

/-- phase 2 of `load_all`: partition into ready/pending -/
def firstLoadState (plugins : List Plugin) : LoadState :=
  { ready := plugins.filter (fun p => p.deps.isEmpty),
    pending := plugins.filter (fun p => !p.deps.isEmpty),
    inited := [],
    attempts := [] }

/-- phase 3 of `load_all`: the `while ready:` loop (`ready.pop()` takes the
last element); `fuel` bounds the iteration count, and every proved
property holds for every fuel value -/
def loadLoop : Nat → LoadState → LoadState
  | 0, st => st
  | fuel + 1, st =>
    match st.ready.getLast? with
    | none => st
    | some g =>
      let ready0 := st.ready.dropLast
      let attempts' := st.attempts ++ [(g.name, st.inited)]
      if g.ok then
        let pending1 := st.pending.map (stripDep g.name)
        loadLoop fuel
          { ready := ready0 ++ pending1.filter (fun p => p.deps.isEmpty),
            pending := pending1.filter (fun p => !p.deps.isEmpty),
            inited := st.inited ++ [g.name],
            attempts := attempts' }
      else
        loadLoop fuel { st with ready := ready0, attempts := attempts' }

def load_all (fuel : Nat) (plugins : List Plugin) : LoadState :=
  loadLoop fuel (firstLoadState plugins)

/-- direct dependency between plugin names -/
def DepEdge (plugins : List Plugin) (a b : String) : Prop :=
  ∃ p ∈ plugins, p.name = a ∧ b ∈ p.deps

def demoPlugins : List Plugin :=
  [⟨"powerseries", [], true⟩, ⟨"radiora2", [], true⟩,
   ⟨"synther", ["radiora2", "powerseries"], true⟩]

end Stargate

section LoaderLemmas

lemma mem_of_getLast?_eq {α : Type} {l : List α} {a : α} (h : l.getLast? = some a) : a ∈ l := by
  cases l with
  | nil => simp at h
  | cons x xs =>
    rw [List.getLast?_eq_getLast_of_ne_nil (by simp)] at h
    injection h with h'
    rw [← h']
    exact List.getLast_mem (by simp)

lemma filter_filter_bool {α : Type} (p q : α → Bool) (l : List α) :
    (l.filter p).filter q = l.filter (fun a => p a && q a) := by
  induction l with
  | nil => rfl
  | cons a l ih =>
    by_cases hp : p a
    · by_cases hq : q a <;> simp [List.filter_cons, hp, hq, ih]
    · simp [List.filter_cons, hp, ih]

lemma filter_notMem_append (l ini : List String) (n : String) :
    (l.filter (fun d => decide (¬ d ∈ ini))).filter (fun d => d ≠ n)
      = l.filter (fun d => decide (¬ d ∈ ini ++ [n])) := by
  rw [filter_filter_bool]
  apply List.filter_congr
  intro a _
  by_cases h1 : a ∈ ini <;> by_cases h2 : a = n <;> simp [h1, h2]

/-- loop invariant of the gateway loader: remaining dependency lists are
the original ones minus the successfully initialized plugins, ready
plugins have none left, initialized plugins are ok and were attempted, and
every attempt happened with all of the plugin's dependencies already
initialized (recorded in its snapshot) -/
def LoadInv (plugins : List Plugin) (st : LoadState) : Prop :=
  (∀ p ∈ st.ready ++ st.pending, ∃ q ∈ plugins, q.name = p.name ∧ q.ok = p.ok ∧
    p.deps = q.deps.filter (fun d => decide (¬ d ∈ st.inited))) ∧
  (∀ p ∈ st.ready, p.deps = []) ∧
  (∀ n ∈ st.inited, ∃ q ∈ plugins, q.name = n ∧ q.ok = true ∧ n ∈ st.attempts.map Prod.fst) ∧
  (∀ e ∈ st.attempts, e.2 ⊆ st.inited ∧ ∀ q ∈ plugins, q.name = e.1 → ∀ d ∈ q.deps, d ∈ e.2)

lemma loadInv_first (plugins : List Plugin) : LoadInv plugins (firstLoadState plugins) := by
  refine ⟨?_, ?_, ?_, ?_⟩
  · intro p hp
    have hp' : p ∈ plugins := by
      rcases List.mem_append.mp hp with h | h
      · exact List.mem_of_mem_filter h
      · exact List.mem_of_mem_filter h
    exact ⟨p, hp', rfl, rfl, by simp [firstLoadState]⟩
  · intro p hp
    have hs := (List.mem_filter.mp (show p ∈ List.filter _ plugins from hp)).2
    exact List.isEmpty_iff.mp hs
  · intro n hn
    simp [firstLoadState] at hn
  · intro e he
    simp [firstLoadState] at he

lemma ready_elem_deps_inited (plugins : List Plugin) (st : LoadState)
    (hinv : LoadInv plugins st) (g : Plugin) (hg : g ∈ st.ready) :
    ∃ q ∈ plugins, q.name = g.name ∧ q.ok = g.ok ∧ ∀ d ∈ q.deps, d ∈ st.inited := by
  rcases hinv.1 g (List.mem_append_left _ hg) with ⟨q, hq, hname, hok, hdeps⟩
  refine ⟨q, hq, hname, hok, ?_⟩
  intro d hd
  by_contra hni
  have hmem : d ∈ g.deps := by
    rw [hdeps]
    exact List.mem_filter.mpr ⟨hd, by simpa using hni⟩
  rw [hinv.2.1 g hg] at hmem
  simp at hmem

lemma loadInv_loadLoop (plugins : List Plugin)
    (hnodup : (plugins.map Plugin.name).Nodup) :
    ∀ (fuel : Nat) (st : LoadState), LoadInv plugins st → LoadInv plugins (loadLoop fuel st) := by
  intro fuel
  induction fuel with
  | zero => exact fun st h => h
  | succ fuel ih =>
    intro st h
    rw [loadLoop]
    cases hg : st.ready.getLast? with
    | none => exact h
    | some g =>
      dsimp only
      have hgmem : g ∈ st.ready := mem_of_getLast?_eq hg
      rcases ready_elem_deps_inited plugins st h g hgmem with ⟨qg, hqg, hqgname, hqgok, hqgdeps⟩
      have hattempt : ∀ q ∈ plugins, q.name = g.name → ∀ d ∈ q.deps, d ∈ st.inited := by
        intro q hq hname d hd
        have hq_eq : q = qg :=
          List.inj_on_of_nodup_map hnodup hq hqg (by rw [hname, hqgname])
        exact hqgdeps d (hq_eq ▸ hd)
      by_cases hok : g.ok
      · rw [if_pos hok]
        apply ih
        refine ⟨?_, ?_, ?_, ?_⟩
        · intro p hp
          rcases List.mem_append.mp hp with hpr | hpp
          · rcases List.mem_append.mp hpr with hp0 | hppro
            · have hpready : p ∈ st.ready := (List.dropLast_sublist st.ready).subset hp0
              rcases h.1 p (List.mem_append_left _ hpready) with ⟨q, hq, hn, hko, hdeps⟩
              refine ⟨q, hq, hn, hko, ?_⟩
              have hpnil := h.2.1 p hpready
              rw [hpnil]
              symm
              rw [List.filter_eq_nil_iff]
              intro d hd
              have hdini : d ∈ st.inited := by
                by_contra hni
                have hmem : d ∈ q.deps.filter (fun x => decide (¬ x ∈ st.inited)) :=
                  List.mem_filter.mpr ⟨hd, by simpa using hni⟩
                rw [← hdeps, hpnil] at hmem
                simp at hmem
              simp [List.mem_append, hdini]
            · have hp1 : p ∈ st.pending.map (stripDep g.name) := List.mem_of_mem_filter hppro
              rcases List.mem_map.mp hp1 with ⟨p0, hp0, hps⟩
              rcases h.1 p0 (List.mem_append_right _ hp0) with ⟨q, hq, hn, hko, hdeps⟩
              refine ⟨q, hq, by rw [← hps]; exact hn, by rw [← hps]; exact hko, ?_⟩
              rw [← hps]
              show (stripDep g.name p0).deps = _
              unfold stripDep
              dsimp only
              rw [hdeps, filter_notMem_append]
          · have hp1 : p ∈ st.pending.map (stripDep g.name) := List.mem_of_mem_filter hpp
            rcases List.mem_map.mp hp1 with ⟨p0, hp0, hps⟩
            rcases h.1 p0 (List.mem_append_right _ hp0) with ⟨q, hq, hn, hko, hdeps⟩
            refine ⟨q, hq, by rw [← hps]; exact hn, by rw [← hps]; exact hko, ?_⟩
            rw [← hps]
            show (stripDep g.name p0).deps = _
            unfold stripDep
            dsimp only
            rw [hdeps, filter_notMem_append]
        · intro p hp
          rcases List.mem_append.mp hp with hp0 | hppro
          · exact h.2.1 p ((List.dropLast_sublist st.ready).subset hp0)
          · have hs := (List.mem_filter.mp hppro).2
            exact List.isEmpty_iff.mp hs
        · intro n hn
          rcases List.mem_append.mp hn with hold | hnew
          · rcases h.2.2.1 n hold with ⟨q, hq, hn', hok', hatt⟩
            refine ⟨q, hq, hn', hok', ?_⟩
            rw [List.map_append]
            exact List.mem_append_left _ hatt
          · have hn_eq : n = g.name := by simpa using hnew
            subst hn_eq
            refine ⟨qg, hqg, hqgname, hqgok.trans hok, ?_⟩
            rw [List.map_append]
            apply List.mem_append_right
            simp
        · intro e he
          rcases List.mem_append.mp he with hold | hnew
          · rcases h.2.2.2 e hold with ⟨hsub, hdeps⟩
            exact ⟨fun x hx => List.mem_append_left _ (hsub hx), hdeps⟩
          · have he_eq : e = (g.name, st.inited) := by simpa using hnew
            subst he_eq
            exact ⟨fun x hx => List.mem_append_left _ hx, hattempt⟩
      · rw [if_neg hok]
        apply ih
        refine ⟨?_, ?_, ?_, ?_⟩
        · intro p hp
          rcases List.mem_append.mp hp with hp0 | hpp
          · exact h.1 p (List.mem_append_left _ ((List.dropLast_sublist st.ready).subset hp0))
          · exact h.1 p (List.mem_append_right _ hpp)
        · intro p hp
          exact h.2.1 p ((List.dropLast_sublist st.ready).subset hp)
        · intro n hn
          rcases h.2.2.1 n hn with ⟨q, hq, hn', hok', hatt⟩
          refine ⟨q, hq, hn', hok', ?_⟩
          rw [List.map_append]
          exact List.mem_append_left _ hatt
        · intro e he
          rcases List.mem_append.mp he with hold | hnew
          · exact h.2.2.2 e hold
          · have he_eq : e = (g.name, st.inited) := by simpa using hnew
            subst he_eq
            exact ⟨fun x hx => hx, hattempt⟩

lemma trans_dep_inited (plugins : List Plugin) (st : LoadState)
    (hinv : LoadInv plugins st) :
    ∀ a b, Relation.TransGen (DepEdge plugins) a b →
      a ∈ st.attempts.map Prod.fst → b ∈ st.inited := by
  intro a b htrans
  induction htrans with
  | single hedge =>
    intro ha
    rcases hedge with ⟨p, hp, hpa, hbd⟩
    rcases List.mem_map.mp ha with ⟨e, he, hefst⟩
    have h4 := hinv.2.2.2 e he
    exact h4.1 (h4.2 p hp (by rw [hpa]; exact hefst.symm) _ hbd)
  | tail hab hbc ih =>
    intro ha
    have hbini := ih ha
    rcases hinv.2.2.1 _ hbini with ⟨qb, hqb, hqbn, hqbok, hbatt⟩
    rcases hbc with ⟨p, hp, hpb, hcd⟩
    rcases List.mem_map.mp hbatt with ⟨e, he, hefst⟩
    have h4 := hinv.2.2.2 e he
    exact h4.1 (h4.2 p hp (by rw [hpb]; exact hefst.symm) _ hcd)

end LoaderLemmas

/-- C5: the loader never initializes a gateway before every gateway it
depends on has been initialized successfully - every init attempt's
snapshot already contains all of the plugin's dependencies, and every
initialized name belongs to a plugin whose init succeeds; moreover, if any
gateway a plugin transitively depends on fails to initialize, that plugin
is never attempted (contrapositive: an attempted plugin's transitive
dependencies were all initialized successfully). -/
theorem gateway_loader_dependency_order (plugins : List Plugin)
    (hnodup : (plugins.map Plugin.name).Nodup) (fuel : Nat) (q : Plugin) (hq : q ∈ plugins) :
    (∀ e ∈ (load_all fuel plugins).attempts, e.1 = q.name →
      e.2 ⊆ (load_all fuel plugins).inited ∧ ∀ d ∈ q.deps, d ∈ e.2) ∧
    (∀ n ∈ (load_all fuel plugins).inited, ∃ p ∈ plugins, p.name = n ∧ p.ok = true) ∧
    (q.name ∈ (load_all fuel plugins).attempts.map Prod.fst →
      ∀ b, Relation.TransGen (DepEdge plugins) q.name b →
        b ∈ (load_all fuel plugins).inited ∧ ∃ p ∈ plugins, p.name = b ∧ p.ok = true) := by
  have hinv : LoadInv plugins (load_all fuel plugins) :=
    loadInv_loadLoop plugins hnodup fuel _ (loadInv_first plugins)
  refine ⟨?_, ?_, ?_⟩
  · intro e he heq
    have h4 := hinv.2.2.2 e he
    exact ⟨h4.1, h4.2 q hq heq.symm⟩
  · intro n hn
    rcases hinv.2.2.1 n hn with ⟨p, hp, hn', hok', _⟩
    exact ⟨p, hp, hn', hok'⟩
  · intro hatt b htrans
    have hbini := trans_dep_inited plugins _ hinv q.name b htrans hatt
    rcases hinv.2.2.1 b hbini with ⟨p, hp, hn', hok', _⟩
    exact ⟨hbini, p, hp, hn', hok'⟩

theorem gateway_loader_dependency_order_witness :
    (demoPlugins.map Plugin.name).Nodup ∧
    (⟨"synther", ["radiora2", "powerseries"], true⟩ : Plugin) ∈ demoPlugins ∧
    ((∀ e ∈ (load_all 3 demoPlugins).attempts,
        e.1 = (⟨"synther", ["radiora2", "powerseries"], true⟩ : Plugin).name →
        e.2 ⊆ (load_all 3 demoPlugins).inited ∧
          ∀ d ∈ (⟨"synther", ["radiora2", "powerseries"], true⟩ : Plugin).deps, d ∈ e.2) ∧
      (∀ n ∈ (load_all 3 demoPlugins).inited, ∃ p ∈ demoPlugins, p.name = n ∧ p.ok = true) ∧
      ((⟨"synther", ["radiora2", "powerseries"], true⟩ : Plugin).name
          ∈ (load_all 3 demoPlugins).attempts.map Prod.fst →
        ∀ b, Relation.TransGen (DepEdge demoPlugins)
            (⟨"synther", ["radiora2", "powerseries"], true⟩ : Plugin).name b →
          b ∈ (load_all 3 demoPlugins).inited ∧
            ∃ p ∈ demoPlugins, p.name = b ∧ p.ok = true)) :=
  ⟨by decide, by decide,
    gateway_loader_dependency_order demoPlugins (by decide) 3
      ⟨"synther", ["radiora2", "powerseries"], true⟩ (by decide)⟩
